import Mathlib

/-!
Shallow embedding of the request-processing core of the `gotham` repository:
the `HandlerError` type with its conversions (`src/handler/error.rs`) and the
middleware chain contract (`src/middleware/mod.rs`), together with proofs of
the specification claims about them.
-/

namespace Gotham

/-- Models a value of Rust `hyper::StatusCode`, identified by its `u16` code
(`as_u16`). -/
abbrev StatusCode := Nat

/-- `StatusCode::InternalServerError` has numeric code 500. -/
def StatusCode.internalServerError : StatusCode := 500

/-- Models `hyper::StatusCode::canonical_reason` (an external dependency of
`error.rs`): the canonical reason phrase of a registered status code, `none`
for unregistered codes. Only the standard registry entries used by this
development are listed; every code outside the registry maps to `none`. -/
def canonicalReason : StatusCode → Option String
  | 100 => some "Continue"
  | 101 => some "Switching Protocols"
  | 200 => some "OK"
  | 201 => some "Created"
  | 202 => some "Accepted"
  | 204 => some "No Content"
  | 301 => some "Moved Permanently"
  | 302 => some "Found"
  | 303 => some "See Other"
  | 304 => some "Not Modified"
  | 307 => some "Temporary Redirect"
  | 400 => some "Bad Request"
  | 401 => some "Unauthorized"
  | 403 => some "Forbidden"
  | 404 => some "Not Found"
  | 405 => some "Method Not Allowed"
  | 406 => some "Not Acceptable"
  | 408 => some "Request Timeout"
  | 409 => some "Conflict"
  | 410 => some "Gone"
  | 412 => some "Precondition Failed"
  | 500 => some "Internal Server Error"
  | 501 => some "Not Implemented"
  | 502 => some "Bad Gateway"
  | 503 => some "Service Unavailable"
  | 504 => some "Gateway Timeout"
  | _ => none

/-- Models an arbitrary Rust value implementing `std::error::Error`: it carries
a `description`, a `Debug` representation (`debugRepr`), and an optional nested
cause (`Error::cause`). -/
inductive ErrVal : Type where
  | mk (description : String) (debugRepr : String) (nested : Option ErrVal)

/-- The `description` of an error value. -/
def ErrVal.description : ErrVal → String
  | .mk d _ _ => d

/-- The `Debug` representation of an error value. -/
def ErrVal.debugRepr : ErrVal → String
  | .mk _ r _ => r

/-- The optional nested cause of an error value (`Error::cause`). -/
def ErrVal.nested : ErrVal → Option ErrVal
  | .mk _ _ c => c

/-- Walking the cause chain starting from an error value: the value itself
followed by the chain of its nested cause, if any. -/
def ErrVal.chainFrom : ErrVal → List ErrVal
  | .mk d r none => [.mk d r none]
  | .mk d r (some c) => .mk d r (some c) :: c.chainFrom

/-- `struct HandlerError { status_code: StatusCode, cause: Box<Error> }` from
`src/handler/error.rs`. -/
structure HandlerError where
  status_code : StatusCode
  cause : ErrVal

/-- `impl<E: Error> IntoHandlerError for E`: wraps any error value into a
`HandlerError` with status `StatusCode::InternalServerError`. -/
def intoHandlerError (e : ErrVal) : HandlerError :=
  { status_code := StatusCode.internalServerError, cause := e }

/-- `impl Display for HandlerError`: writes the fixed description only. -/
def HandlerError.display (_ : HandlerError) : String :=
  "handler failed to process request"

/-- `impl Debug for HandlerError`: the `Display` form, then `" ("`, the
cause's `Debug` form, and `")"`. -/
def HandlerError.debug (e : HandlerError) : String :=
  e.display ++ " (" ++ e.cause.debugRepr ++ ")"

/-- `Error::description for HandlerError`: the fixed description string. -/
def HandlerError.description (_ : HandlerError) : String :=
  "handler failed to process request"

/-- `Error::cause for HandlerError`: always `Some` of the wrapped cause. -/
def HandlerError.errorCause (e : HandlerError) : Option ErrVal :=
  some e.cause

/-- The cause chain reachable by diagnostic tooling from a `HandlerError`:
whatever `Error::cause` exposes, followed by its own chain. -/
def HandlerError.causeChain (e : HandlerError) : List ErrVal :=
  match e.errorCause with
  | none => []
  | some c => c.chainFrom

/-- `HandlerError::with_status`: a new `HandlerError` with the given status
code and all other fields (`..self`) unchanged. -/
def HandlerError.with_status (e : HandlerError) (s : StatusCode) : HandlerError :=
  { e with status_code := s }

/-- Modelled from the spec: the per-request `State` container (the `state`
module is not under `src/`); only its reserved, read-only request-id entry is
relevant here. -/
structure State where
  requestId : String

/-- Modelled from the spec: `state::request_id` reads the reserved request-id
entry of the `State`. -/
def request_id (s : State) : String := s.requestId

/-- Models a `hyper::Response` as far as `error.rs` observes it: a status code
and an optional body. -/
structure Response where
  status : StatusCode
  body : Option String
deriving DecidableEq

/-- Modelled from the spec: `http::response::create_response` (not under
`src/`) builds a response with the given status; a `None` body argument yields
a response with no body. -/
def create_response (_ : State) (status : StatusCode) (body : Option String) : Response :=
  { status := status, body := body }

/-- The trace line emitted by `IntoResponse for HandlerError`:
`"[{}] HandlerError generating HTTP response with status: {} {}"` formatted
with the request id, the numeric status code, and
`canonical_reason().unwrap_or("(unregistered)")`. -/
def HandlerError.traceLine (e : HandlerError) (s : State) : String :=
  "[" ++ request_id s ++ "] HandlerError generating HTTP response with status: "
    ++ toString e.status_code ++ " "
    ++ (canonicalReason e.status_code).getD "(unregistered)"

/-- `impl IntoResponse for HandlerError`: emits one trace line, then returns
`create_response(state, self.status_code, None)`. The second component
collects the trace lines emitted by the call, in order. -/
def HandlerError.into_response (e : HandlerError) (s : State) : Response × List String :=
  (create_response s e.status_code none, [e.traceLine s])

/-- Modelled from the spec: a single link's behaviour under the
`Middleware::call` contract (§4.3) — the chain composition machinery
(`middleware::pipeline`) is declared in `src/middleware/mod.rs` but its code is
not under `src/`. A middleware either delegates, invoking the continuation
with a (possibly updated) state, or terminates, producing a result itself
without ever invoking the continuation. -/
inductive MwStep (σ ρ : Type) : Type where
  | delegate (f : σ → σ)
  | terminate (g : σ → ρ)

/-- The observable outcome of running a chain on a state: the ordered list of
indices of the middleware whose `call` executed, whether the terminal handler
executed, and the final result. -/
structure RunResult (σ ρ : Type) where
  log : List Nat
  handlerRan : Bool
  result : ρ

/-- Modelled from the spec: execution of the remaining chain links, the first
of which carries index `i`. An empty remainder runs the terminal handler; a
delegating link records itself and passes its state to the continuation (the
rest of the chain); a terminating link records itself and produces its result
without invoking the continuation. -/
def runFrom {σ ρ : Type} (hdl : σ → ρ) : List (MwStep σ ρ) → σ → Nat → RunResult σ ρ
  | [], s, _ => { log := [], handlerRan := true, result := hdl s }
  | .delegate f :: rest, s, i =>
      let r := runFrom hdl rest (f s) (i + 1)
      { log := i :: r.log, handlerRan := r.handlerRan, result := r.result }
  | .terminate g :: _, s, i =>
      { log := [i], handlerRan := false, result := g s }

/-- Modelled from the spec: running a whole chain `[M1, ..., Mn, Handler]` on
an initial state, with `M1` at index 0. -/
def runChain {σ ρ : Type} (ms : List (MwStep σ ρ)) (hdl : σ → ρ) (s : σ) : RunResult σ ρ :=
  runFrom hdl ms s 0

/-- The index of the first terminating link of a chain, if any. -/
def firstTerminating {σ ρ : Type} : List (MwStep σ ρ) → Option Nat
  | [] => none
  | .delegate _ :: rest => (firstTerminating rest).map (· + 1)
  | .terminate _ :: _ => some 0

/-- The number of middleware links that execute: all of them when every link
delegates, otherwise exactly the links up to and including the first
terminating one. -/
def execCount {σ ρ : Type} (ms : List (MwStep σ ρ)) : Nat :=
  match firstTerminating ms with
  | none => ms.length
  | some k => k + 1

/-- Modelled from the spec: an I/O-flavoured construction error, the error
side of `io::Result` returned by `NewMiddleware::new_middleware`. -/
structure IoError where
  message : String

/-- Modelled from the spec: the outcome of one `new_middleware` call — either
a fresh middleware instance or an explicit construction error. Chain assembly
(§4.5) instantiates each factory in order and aborts at the first failure,
before any middleware executes. -/
def assembleChain {σ ρ : Type} :
    List (Except IoError (MwStep σ ρ)) → Except IoError (List (MwStep σ ρ))
  | [] => .ok []
  | .ok m :: rest => (assembleChain rest).map (m :: ·)
  | .error e :: _ => .error e

/-- Modelled from the spec: per-request processing — assemble the chain from
the factories' outcomes, then run it; a construction failure aborts the
request before any middleware executes, yielding the explicit error. -/
def processRequest {σ ρ : Type} (fs : List (Except IoError (MwStep σ ρ)))
    (hdl : σ → ρ) (s : σ) : Except IoError (RunResult σ ρ) :=
  (assembleChain fs).map (fun ms => runChain ms hdl s)

/-! Helper lemmas. -/

/-- Folding `with_status` over any list of status codes never changes the
wrapped cause. -/
theorem foldl_with_status_cause (ss : List StatusCode) :
    ∀ h : HandlerError, (ss.foldl HandlerError.with_status h).cause = h.cause := by
  induction ss with
  | nil => intro h; rfl
  | cons s ss ih => intro h; exact ih (h.with_status s)

/-- A delegating link in front of a chain adds one to the number of executing
middleware. -/
theorem execCount_delegate_cons {σ ρ : Type} (f : σ → σ) (rest : List (MwStep σ ρ)) :
    execCount (.delegate f :: rest) = execCount rest + 1 := by
  cases hft : firstTerminating rest <;>
    simp [execCount, firstTerminating, hft]

/-- The log of a partial run starting at index `i` is the consecutive block of
indices `i, i+1, ...` of length `execCount`, and the terminal handler runs
exactly when no link terminates. -/
theorem runFrom_log_handlerRan {σ ρ : Type} (hdl : σ → ρ) (ms : List (MwStep σ ρ)) :
    ∀ (s : σ) (i : Nat),
      (runFrom hdl ms s i).log = List.range' i (execCount ms)
        ∧ (runFrom hdl ms s i).handlerRan = (firstTerminating ms).isNone := by
  induction ms with
  | nil =>
    intro s i
    exact ⟨rfl, rfl⟩
  | cons m rest ih =>
    intro s i
    cases m with
    | delegate f =>
      obtain ⟨hlog, hran⟩ := ih (f s) (i + 1)
      refine ⟨?_, ?_⟩
      · show i :: (runFrom hdl rest (f s) (i + 1)).log = _
        rw [hlog, execCount_delegate_cons, List.range'_succ]
      · show (runFrom hdl rest (f s) (i + 1)).handlerRan = _
        rw [hran]
        cases hft : firstTerminating rest <;> simp [firstTerminating, hft]
    | terminate g =>
      exact ⟨rfl, rfl⟩

/-! Claim theorems. -/

/-- C1: `into_handler_error` wraps any error value into a `HandlerError`
whose status code is 500 (whose canonical reason is "Internal Server Error")
and whose wrapped cause is exactly the given value; converting the result to
a response without an explicit status override yields status 500 and no
body. -/
theorem into_handler_error_defaults_to_500 (e : ErrVal) (st : State) :
    (intoHandlerError e).status_code = 500
      ∧ (intoHandlerError e).cause = e
      ∧ canonicalReason (intoHandlerError e).status_code = some "Internal Server Error"
      ∧ ((intoHandlerError e).into_response st).1.status = 500
      ∧ ((intoHandlerError e).into_response st).1.body = none :=
  ⟨rfl, rfl, rfl, rfl, rfl⟩

/-- C2: `into_response` produces a response with no body and exactly the
stored status code, and emits exactly one trace line, which contains the
request id, the numeric status code, and the canonical reason phrase with the
literal "(unregistered)" as fallback. -/
theorem into_response_status_body_and_trace (e : HandlerError) (st : State) :
    (e.into_response st).1.status = e.status_code
      ∧ (e.into_response st).1.body = none
      ∧ (e.into_response st).2 = [e.traceLine st]
      ∧ (e.into_response st).2.length = 1
      ∧ (∃ x y, e.traceLine st = x ++ request_id st ++ y)
      ∧ (∃ x y, e.traceLine st = x ++ toString e.status_code ++ y)
      ∧ (∃ x y,
          e.traceLine st = x ++ (canonicalReason e.status_code).getD "(unregistered)" ++ y) := by
  refine ⟨rfl, rfl, rfl, rfl, ?_, ?_, ?_⟩
  · exact ⟨"[",
      "] HandlerError generating HTTP response with status: " ++ toString e.status_code
        ++ " " ++ (canonicalReason e.status_code).getD "(unregistered)",
      by simp [HandlerError.traceLine, String.append_assoc]⟩
  · exact ⟨"[" ++ request_id st ++ "] HandlerError generating HTTP response with status: ",
      " " ++ (canonicalReason e.status_code).getD "(unregistered)",
      by simp [HandlerError.traceLine, String.append_assoc]⟩
  · exact ⟨"[" ++ request_id st ++ "] HandlerError generating HTTP response with status: "
        ++ toString e.status_code ++ " ",
      "",
      by simp [HandlerError.traceLine, String.append_assoc]⟩

/-- C3: `with_status` returns a `HandlerError` with the new status code and
the wrapped cause unchanged; converting the result to a response yields the
new status in both the response and the trace line. -/
theorem with_status_changes_only_status (e : HandlerError) (s : StatusCode) (st : State) :
    (e.with_status s).status_code = s
      ∧ (e.with_status s).cause = e.cause
      ∧ ((e.with_status s).into_response st).1.status = s
      ∧ (∃ x y, ((e.with_status s).into_response st).2 = [x ++ toString s ++ y]) :=
  ⟨rfl, rfl, rfl,
    ⟨"[" ++ request_id st ++ "] HandlerError generating HTTP response with status: ",
      " " ++ (canonicalReason s).getD "(unregistered)",
      by simp [HandlerError.into_response, HandlerError.traceLine, HandlerError.with_status,
        String.append_assoc]⟩⟩

/-- C5: the `Display` form of every `HandlerError` is exactly the fixed
description, independent of the wrapped cause; the `Debug` form is the fixed
description followed by the cause's debug representation in parentheses. -/
theorem display_fixed_debug_appends_cause (e e' : HandlerError) :
    e.display = "handler failed to process request"
      ∧ e.display = e'.display
      ∧ e.debug = "handler failed to process request" ++ " (" ++ e.cause.debugRepr ++ ")" :=
  ⟨rfl, rfl, rfl⟩

/-- C6: the failure-trait `description` of every `HandlerError` is the fixed
string, and its nested cause is exactly the wrapped cause, so every failure
reachable by walking the wrapped cause's chain is reachable from the
`HandlerError`. -/
theorem error_trait_description_and_cause (e : HandlerError) :
    e.description = "handler failed to process request"
      ∧ e.errorCause = some e.cause
      ∧ ∀ v ∈ e.cause.chainFrom, v ∈ e.causeChain :=
  ⟨rfl, rfl, fun _ hv => hv⟩

/-- C9: a `HandlerError` built by `into_handler_error` and any number of
`with_status` applications always reports `Some` of the original wrapped
cause as its nested cause, never the absent case. -/
theorem cause_never_absent (v : ErrVal) (ss : List StatusCode) :
    (ss.foldl HandlerError.with_status (intoHandlerError v)).errorCause = some v := by
  show some (ss.foldl HandlerError.with_status (intoHandlerError v)).cause = some v
  rw [foldl_with_status_cause]
  rfl

/-- C10: `with_status` is last-write-wins — applying it twice equals applying
only the second one, with the same status code and the same wrapped cause. -/
theorem with_status_last_write_wins (e : HandlerError) (s₁ s₂ : StatusCode) :
    (e.with_status s₁).with_status s₂ = e.with_status s₂ :=
  rfl

/-- C4: running a chain executes middleware strictly in list order starting
at the first one — the execution log is the consecutive block of indices
`0, 1, ...` up to and including the first terminating link (all links when
every one delegates); the terminal handler runs exactly when no link
terminates, and whenever link `k` is the first to terminate, links after `k`
and the handler never execute. -/
theorem middleware_chain_ordering {σ ρ : Type} (ms : List (MwStep σ ρ)) (hdl : σ → ρ) (s : σ) :
    (runChain ms hdl s).log = List.range (execCount ms)
      ∧ (runChain ms hdl s).handlerRan = (firstTerminating ms).isNone
      ∧ ∀ k, firstTerminating ms = some k →
          (runChain ms hdl s).log = List.range (k + 1)
            ∧ (runChain ms hdl s).handlerRan = false := by
  obtain ⟨hlog, hran⟩ := runFrom_log_handlerRan hdl ms s 0
  have hlog' : (runChain ms hdl s).log = List.range (execCount ms) := by
    rw [List.range_eq_range']
    exact hlog
  refine ⟨hlog', hran, fun k hk => ⟨?_, ?_⟩⟩
  · rw [hlog']
    simp [execCount, hk]
  · show (runFrom hdl ms s 0).handlerRan = false
    rw [hran, hk]
    rfl

/-- Witness for the chain-ordering theorem: a concrete three-link chain whose
second link terminates executes exactly links 0 and 1 and never runs the
handler. -/
theorem middleware_chain_ordering_witness :
    (runChain [MwStep.delegate (fun n : Nat => n + 1),
        MwStep.terminate (fun n : Nat => n * 2), MwStep.delegate id] id 0).log = List.range 2
      ∧ (runChain [MwStep.delegate (fun n : Nat => n + 1),
          MwStep.terminate (fun n : Nat => n * 2), MwStep.delegate id] id 0).handlerRan
        = false :=
  (middleware_chain_ordering _ id 0).2.2 1 rfl

/-- C7: processing a request from a list of factory outcomes either yields a
chain with exactly one instance per factory and runs it, or fails with an
explicit construction error that one of the factories reported — never
anything else; in the failure case the request is aborted with the error
value and no chain is run. -/
theorem new_middleware_explicit_errors {σ ρ : Type} (fs : List (Except IoError (MwStep σ ρ)))
    (hdl : σ → ρ) (s : σ) :
    (∃ ms, assembleChain fs = .ok ms ∧ ms.length = fs.length
        ∧ processRequest fs hdl s = .ok (runChain ms hdl s))
      ∨ (∃ e, Except.error e ∈ fs ∧ assembleChain fs = .error e
          ∧ processRequest fs hdl s = .error e) := by
  induction fs with
  | nil => exact .inl ⟨[], rfl, rfl, rfl⟩
  | cons f rest ih =>
    cases f with
    | ok m =>
      rcases ih with ⟨ms, hok, hlen, _⟩ | ⟨e, hmem, herr, _⟩
      · refine .inl ⟨m :: ms, ?_, ?_, ?_⟩
        · show (assembleChain rest).map (m :: ·) = _
          rw [hok]; rfl
        · simpa using hlen
        · show ((assembleChain (.ok m :: rest)).map fun ms => runChain ms hdl s) = _
          show ((assembleChain rest).map (m :: ·)).map _ = _
          rw [hok]; rfl
      · refine .inr ⟨e, List.mem_cons_of_mem _ hmem, ?_, ?_⟩
        · show (assembleChain rest).map (m :: ·) = _
          rw [herr]; rfl
        · show ((assembleChain rest).map (m :: ·)).map _ = _
          rw [herr]; rfl
    | error e =>
      exact .inr ⟨e, List.mem_cons_self _ _, rfl, rfl⟩

end Gotham
